import Mathlib

/-!
# Verification of the racetime.gg client library core (`src/lib.rs`)

A shallow embedding of the request/response protocol layer of the
`rust-racetime` library: URI construction (`uri` / `http_uri`), OAuth2
token acquisition (`authorize`), and race-room creation
(`StartRace::start`), together with the unified `Error` taxonomy.

Pure computations (form building, header parsing, expiry defaulting) are
translated directly from the Rust source.  The network layer (the
`reqwest` client) is modelled by passing the completed HTTP response as an
explicit value: a response is its status plus the data the code inspects
(the JSON body for `authorize`, the `location` header for `start`).
-/

namespace Racetime

/-- `const RACETIME_HOST: &str = "racetime.gg";` (src/lib.rs line 28). -/
def RACETIME_HOST : String := "racetime.gg"

/-- A parsed absolute URL, as produced by the external `url` crate:
scheme, host, and path. -/
structure Url where
  scheme : String
  host : String
  path : String
deriving DecidableEq, Repr

/-- The `Error` enum (src/lib.rs lines 30–55), restricted to the variants
reachable from the embedded operations.  `Reqwest` models
`Error::Reqwest(reqwest::Error)` for a failed HTTP status: the
`reqwest::Error` built by `error_for_status` carries the request URL and
the status. -/
inductive Error where
  | HeaderToStr
  | Json
  | UrlParse
  | LocationCategory
  | LocationFormat
  | MissingLocationHeader
  | Reqwest (url : Url) (status : Nat)
deriving DecidableEq, Repr

/-- Characters allowed in a URI scheme (RFC 3986 `ALPHA *( ALPHA / DIGIT
/ "+" / "-" / "." )`, approximated as the character set; used by the
modelled parser below). -/
def isSchemeChar (c : Char) : Bool :=
  c.isAlpha || c.isDigit || c = '+' || c = '-' || c = '.'

/-- Characters allowed in a URI host (registered-name characters). -/
def isHostChar (c : Char) : Bool :=
  c.isAlpha || c.isDigit || c = '-' || c = '.'

/-- Characters allowed in a URI path. -/
def isUriChar (c : Char) : Bool :=
  c.isAlpha || c.isDigit ||
    c = '/' || c = '-' || c = '.' || c = '_' || c = '~' || c = '%' ||
    c = '!' || c = '$' || c = '&' || c = '(' || c = ')' || c = '*' ||
    c = '+' || c = ',' || c = ';' || c = '=' || c = ':' || c = '@'

/-- Modelled from the spec: the URL parser is the external `url` crate,
not part of this repository.  Per spec §4.1 the composed string has the
form `scheme://HOST path` and parsing "fails with a `UrlParse` kind if
the composed string is not a syntactically valid URI (e.g., `path`
contains characters illegal in a URI)".  The model splits the string at
the first `://`, takes the host up to the first `/`, and validates each
component's character set. -/
def parseUrl (s : String) : Except Error Url :=
  match s.data.dropWhile (fun c => c ≠ ':') with
  | ':' :: '/' :: '/' :: hostpath =>
    if s.data.takeWhile (fun c => c ≠ ':') ≠ [] ∧
        (s.data.takeWhile (fun c => c ≠ ':')).all isSchemeChar ∧
        hostpath.takeWhile (fun c => c ≠ '/') ≠ [] ∧
        (hostpath.takeWhile (fun c => c ≠ '/')).all isHostChar ∧
        (hostpath.dropWhile (fun c => c ≠ '/')).all isUriChar then
      .ok ⟨⟨s.data.takeWhile (fun c => c ≠ ':')⟩,
           ⟨hostpath.takeWhile (fun c => c ≠ '/')⟩,
           ⟨hostpath.dropWhile (fun c => c ≠ '/')⟩⟩
    else
      .error .UrlParse
  | _ => .error .UrlParse

/-- `fn uri(proto: &str, url: &str) -> Result<Url, Error>`
(src/lib.rs lines 62–65): format `{proto}://{RACETIME_HOST}{url}` and
parse it. -/
def uri (proto url : String) : Except Error Url :=
  parseUrl (proto ++ "://" ++ RACETIME_HOST ++ url)

/-- `fn http_uri(url: &str) -> Result<Url, Error>`
(src/lib.rs lines 57–60). -/
def http_uri (url : String) : Except Error Url :=
  uri "https" url

/-- `response.error_for_status()` of the `reqwest` crate.  Modelled from
the spec: per §4.2 the call "fails with an HTTP-error kind carrying the
status/URL" exactly "if the HTTP status indicates failure (4xx/5xx)". -/
def errorForStatus (status : Nat) : Bool :=
  400 ≤ status && status < 600

/-- The deserialized token-endpoint JSON body, `struct AuthResponse`
(src/lib.rs lines 69–73): `access_token: String`,
`expires_in: Option<u64>`. -/
structure AuthResponse where
  access_token : String
  expires_in : Option Nat
deriving DecidableEq, Repr

/-- The token endpoint's completed HTTP response, as observed by
`authorize`: its status, and the result of deserializing its body as
`AuthResponse` (`none` models a body that does not match the expected
JSON shape, on which `.json()` fails). -/
structure AuthHttpResponse where
  status : Nat
  body : Option AuthResponse
deriving DecidableEq, Repr

/-- `pub async fn authorize(...)` (src/lib.rs lines 68–88), applied to
the completed response of the POST to `/o/token`.  The returned validity
is in seconds (`Duration::from_secs`). -/
def authorize (resp : AuthHttpResponse) : Except Error (String × Nat) :=
  match http_uri "/o/token" with
  | .error e => .error e
  | .ok url =>
    if errorForStatus resp.status then
      .error (.Reqwest url resp.status)
    else
      match resp.body with
      | none => .error .Json
      | some data => .ok (data.access_token, data.expires_in.getD 36000)

/-- `fn form_bool(value: bool) -> &'static str` (src/lib.rs line 117). -/
def form_bool (value : Bool) : String :=
  if value then "1" else "0"

/-- `pub struct StartRace` (src/lib.rs lines 90–110).  The `u8` fields
`start_delay`, `time_limit` and `chat_message_delay` are embedded as
`Fin 256`. -/
structure StartRace where
  goal : String
  goal_is_custom : Bool
  team_race : Bool
  invitational : Bool
  unlisted : Bool
  info_user : String
  info_bot : String
  require_even_teams : Bool
  start_delay : Fin 256
  time_limit : Fin 256
  time_limit_auto_complete : Bool
  streaming_required : Option Bool
  auto_start : Bool
  allow_comments : Bool
  hide_comments : Bool
  allow_prerace_chat : Bool
  allow_midrace_chat : Bool
  allow_non_entrant_chat : Bool
  chat_message_delay : Fin 256
deriving DecidableEq, Repr

/-- The form body built by `StartRace::start` (src/lib.rs lines
119–143), as the list of key/value pairs inserted into the `BTreeMap`.
All inserted keys are pairwise distinct, so the map is faithfully
represented by this association list (the `BTreeMap` only reorders the
keys on the wire, which no claim depends on). -/
def StartRace.form (self : StartRace) : List (String × String) :=
  [ (if self.goal_is_custom then "custom_goal" else "goal", self.goal),
    ("team_race", form_bool self.team_race),
    ("invitational", form_bool self.invitational),
    ("unlisted", form_bool self.unlisted),
    ("info_user", self.info_user),
    ("info_bot", self.info_bot),
    ("require_even_teams", form_bool self.require_even_teams),
    ("start_delay", toString self.start_delay.val),
    ("time_limit", toString self.time_limit.val),
    ("time_limit_auto_complete", form_bool self.time_limit_auto_complete),
    ("auto_start", form_bool self.auto_start),
    ("allow_comments", form_bool self.allow_comments),
    ("hide_comments", form_bool self.hide_comments),
    ("allow_prerace_chat", form_bool self.allow_prerace_chat),
    ("allow_midrace_chat", form_bool self.allow_midrace_chat),
    ("allow_non_entrant_chat", form_bool self.allow_non_entrant_chat),
    ("chat_message_delay", toString self.chat_message_delay.val) ] ++
  (match self.streaming_required with
   | some streaming_required => [("streaming_required", form_bool streaming_required)]
   | none => [])

/-- `regex_captures!("^/([^/]+)/([^/]+)$", location)`
(src/lib.rs line 153): match the location against exactly two non-empty,
slash-free path segments and return them. -/
def locationMatch (s : String) : Option (String × String) :=
  match s.data with
  | '/' :: rest =>
    match rest.dropWhile (fun c => c ≠ '/') with
    | '/' :: slug =>
      if rest.takeWhile (fun c => c ≠ '/') ≠ [] ∧ slug ≠ [] ∧ '/' ∉ slug then
        some (⟨rest.takeWhile (fun c => c ≠ '/')⟩, ⟨slug⟩)
      else
        none
    | _ => none
  | _ => none

/-- The room-creation endpoint's completed HTTP response, as observed by
`StartRace::start`: its status and its `location` header.  The outer
`Option` models `headers().get("location")` (header absent = `none`);
the inner `Option` models `.to_str()` (`none` = header bytes that are
not valid visible-ASCII text, on which `to_str` fails). -/
structure StartHttpResponse where
  status : Nat
  location : Option (Option String)
deriving DecidableEq, Repr

/-- `StartRace::start` (src/lib.rs lines 116–156), applied to the
completed response of the POST to `/o/{category}/startrace`.  The form
body sent with that POST is `StartRace.form self`; `access_token` is
attached as the bearer header and does not influence the result. -/
def StartRace.start (self : StartRace) (access_token : String)
    (category : String) (resp : StartHttpResponse) : Except Error String :=
  match http_uri ("/o/" ++ category ++ "/startrace") with
  | .error e => .error e
  | .ok url =>
    if errorForStatus resp.status then
      .error (.Reqwest url resp.status)
    else
      match resp.location with
      | none => .error .MissingLocationHeader
      | some none => .error .HeaderToStr
      | some (some location) =>
        match locationMatch location with
        | none => .error .LocationFormat
        | some (location_category, slug) =>
          if location_category ≠ category then
            .error .LocationCategory
          else
            .ok slug

/-- The shape required of the `location` header by the regex
`^/([^/]+)/([^/]+)$`: exactly two non-empty, slash-free path segments. -/
def TwoSegments (location : String) : Prop :=
  ∃ c s, location = "/" ++ c ++ "/" ++ s ∧
    c ≠ "" ∧ s ≠ "" ∧ '/' ∉ c.data ∧ '/' ∉ s.data

/-- The form keys of `StartRace.form` that carry a boolean
(`form_bool`-encoded) value. -/
def boolFormKeys : List String :=
  ["team_race", "invitational", "unlisted", "require_even_teams",
   "time_limit_auto_complete", "auto_start", "allow_comments",
   "hide_comments", "allow_prerace_chat", "allow_midrace_chat",
   "allow_non_entrant_chat", "streaming_required"]

/-- A concrete room configuration, used to instantiate universally
quantified theorems. -/
def sampleConfig : StartRace :=
  ⟨"Beat the game", false, true, false, true, "", "bot", false, 15, 24,
   true, some true, true, true, false, true, true, false, 250⟩

/-! ## Helper lemmas -/

theorem takeWhile_append_of_all {α} {p : α → Bool} {l : List α} (r : List α)
    (h : ∀ a ∈ l, p a) : (l ++ r).takeWhile p = l ++ r.takeWhile p := by
  induction l with
  | nil => rfl
  | cons a l ih =>
    have ha : p a := h a (List.mem_cons_self a l)
    simp only [List.cons_append, List.takeWhile_cons, ha, if_true]
    exact congrArg (a :: ·) (ih fun x hx => h x (List.mem_cons_of_mem a hx))

theorem dropWhile_append_of_all {α} {p : α → Bool} {l : List α} (r : List α)
    (h : ∀ a ∈ l, p a) : (l ++ r).dropWhile p = r.dropWhile p := by
  induction l with
  | nil => rfl
  | cons a l ih =>
    have ha : p a := h a (List.mem_cons_self a l)
    simp only [List.cons_append, List.dropWhile_cons, ha, if_true]
    exact ih fun x hx => h x (List.mem_cons_of_mem a hx)

theorem mk_ne_empty_of_ne_nil {l : List Char} (h : l ≠ []) :
    String.mk l ≠ "" :=
  fun hc => h (congrArg String.data hc)

theorem all_ne_of_all_isSchemeChar {l : List Char} (h : l.all isSchemeChar) :
    ∀ a ∈ l, (fun c => decide (c ≠ ':')) a := by
  intro a ha
  simp only [decide_eq_true_eq]
  intro hc
  subst hc
  exact absurd (List.all_eq_true.mp h _ ha) (by decide)

/-- Splitting the composed string `{proto}://racetime.gg{path}` at the
first `:` recovers `proto`, and the remainder after `://` splits at the
first `/` into the host and the path, when `proto` is a well-formed
scheme and `path` is empty or starts with `/`. -/
theorem uri_ok (proto path : String)
    (h1 : proto.data ≠ [])
    (h2 : proto.data.all isSchemeChar)
    (h3 : path.data = [] ∨ ∃ r, path.data = '/' :: r)
    (h4 : path.data.all isUriChar) :
    uri proto path = .ok ⟨proto, RACETIME_HOST, path⟩ := by
  have hnc := all_ne_of_all_isSchemeChar h2
  have hdata : (proto ++ "://" ++ RACETIME_HOST ++ path).data
      = proto.data ++ (':' :: '/' :: '/' :: (RACETIME_HOST.data ++ path.data)) := by
    simp [String.data_append, RACETIME_HOST]
  have hdrop : (proto ++ "://" ++ RACETIME_HOST ++ path).data.dropWhile
      (fun c => c ≠ ':') = ':' :: '/' :: '/' :: (RACETIME_HOST.data ++ path.data) := by
    rw [hdata, dropWhile_append_of_all _ hnc]
    simp [List.dropWhile_cons]
  have htake : (proto ++ "://" ++ RACETIME_HOST ++ path).data.takeWhile
      (fun c => c ≠ ':') = proto.data := by
    rw [hdata, takeWhile_append_of_all _ hnc]
    simp [List.takeWhile_cons]
  have hnohost : ∀ a ∈ RACETIME_HOST.data, (fun c => decide (c ≠ '/')) a := by decide
  have htake2 : (RACETIME_HOST.data ++ path.data).takeWhile (fun c => c ≠ '/')
      = RACETIME_HOST.data := by
    rw [takeWhile_append_of_all _ hnohost]
    rcases h3 with h3 | ⟨r, h3⟩ <;> rw [h3] <;> simp [List.takeWhile_cons]
  have hdrop2 : (RACETIME_HOST.data ++ path.data).dropWhile (fun c => c ≠ '/')
      = path.data := by
    rw [dropWhile_append_of_all _ hnohost]
    rcases h3 with h3 | ⟨r, h3⟩ <;> rw [h3] <;> simp [List.dropWhile_cons]
  unfold uri parseUrl
  rw [hdrop]
  simp only [htake, htake2, hdrop2]
  rw [if_pos ⟨h1, h2, by decide, by decide, h4⟩]

theorem parseUrl_error_imp {s : String} {e : Error}
    (h : parseUrl s = .error e) : e = .UrlParse := by
  rw [parseUrl.eq_def] at h
  split at h
  · split at h
    · exact absurd h (by simp)
    · injection h with h
      exact h.symm
  · injection h with h
    exact h.symm

/-- `locationMatch` succeeds exactly on the strings of the form
`/{category}/{slug}` with two non-empty, slash-free segments, and
returns those segments. -/
theorem locationMatch_eq_some_iff {s category slug : String} :
    locationMatch s = some (category, slug) ↔
      s = "/" ++ category ++ "/" ++ slug ∧
      category ≠ "" ∧ slug ≠ "" ∧
      '/' ∉ category.data ∧ '/' ∉ slug.data := by
  constructor
  · intro h
    rw [locationMatch.eq_def] at h
    split at h
    · next rest heq =>
      split at h
      · next slug2 heq2 =>
        split at h
        · next hcond =>
          obtain ⟨hc1, hc2, hc3⟩ := hcond
          injection h with h
          injection h with hcat hslug
          subst hcat
          subst hslug
          have hrest := (List.takeWhile_append_dropWhile
            (fun c => decide (c ≠ '/')) rest).symm
          rw [heq2] at hrest
          refine ⟨?_, mk_ne_empty_of_ne_nil hc1, mk_ne_empty_of_ne_nil hc2, ?_, hc3⟩
          · apply String.ext
            simp only [String.data_append]
            rw [heq]
            conv_lhs => rw [hrest]
            simp
          · intro hmem
            have := List.mem_takeWhile_imp hmem
            simp at this
        · exact absurd h (by simp)
      · exact absurd h (by simp)
    · exact absurd h (by simp)
  · rintro ⟨hs, hc, hsl, hnoc, hnosl⟩
    subst hs
    have hdata : ("/" ++ category ++ "/" ++ slug).data
        = '/' :: (category.data ++ '/' :: slug.data) := by
      simp [String.data_append]
    have hall : ∀ a ∈ category.data, (fun c => decide (c ≠ '/')) a := by
      intro a ha
      simp only [decide_eq_true_eq]
      exact fun hc2 => hnoc (hc2 ▸ ha)
    have htake : (category.data ++ '/' :: slug.data).takeWhile
        (fun c => c ≠ '/') = category.data := by
      rw [takeWhile_append_of_all _ hall]
      simp [List.takeWhile_cons]
    have hdrop : (category.data ++ '/' :: slug.data).dropWhile
        (fun c => c ≠ '/') = '/' :: slug.data := by
      rw [dropWhile_append_of_all _ hall]
      simp [List.dropWhile_cons]
    rw [locationMatch.eq_def, hdata]
    simp only [hdrop, htake]
    rw [if_pos ⟨fun hco => hc (String.ext hco),
      fun hco => hsl (String.ext hco), hnosl⟩]

theorem form_bool_eq (b : Bool) : form_bool b = "1" ∨ form_bool b = "0" := by
  cases b
  · exact Or.inr rfl
  · exact Or.inl rfl

set_option maxRecDepth 4000 in
theorem u8_decimal_repr : ∀ i : Fin 256,
    (toString i.val).length ≤ 3 ∧ (toString i.val).data.all Char.isDigit := by
  decide

/-! ## Claims -/

/-- C3: for every token-endpoint success response whose JSON body
contains the required `access_token` string but omits the optional
`expires_in` field, `authorize` returns that access token paired with a
validity of exactly 36000 seconds; when `expires_in` is present with
value `n`, it returns a validity of exactly `n` seconds. -/
theorem authorize_expiry (status : Nat) (token : String) (n : Nat)
    (h2xx : 200 ≤ status ∧ status < 300) :
    authorize ⟨status, some ⟨token, none⟩⟩ = .ok (token, 36000) ∧
    authorize ⟨status, some ⟨token, some n⟩⟩ = .ok (token, n) := by
  have h400 : ¬ (400 ≤ status) := by omega
  have hefs : errorForStatus status = false := by
    simp [errorForStatus, h400]
  constructor <;>
    · unfold authorize
      rw [show http_uri "/o/token" = .ok ⟨"https", RACETIME_HOST, "/o/token"⟩ from rfl]
      simp [hefs]

theorem authorize_expiry_witness :
    authorize ⟨200, some ⟨"tok", none⟩⟩ = .ok ("tok", 36000) ∧
    authorize ⟨200, some ⟨"tok", some 7200⟩⟩ = .ok ("tok", 7200) :=
  authorize_expiry 200 "tok" 7200 (by decide)

/-- C4: for every room configuration, the form body built by
`create_room` contains the key `streaming_required` if and only if the
configuration's `streaming_required` field is `some value`; when absent
(`none`) no `streaming_required` key is sent at all, and when present
its value is the `"1"`/`"0"` encoding of the supplied boolean. -/
theorem form_streaming_required (self : StartRace) :
    List.lookup "streaming_required" self.form
      = Option.map form_bool self.streaming_required ∧
    ((∃ v, ("streaming_required", v) ∈ self.form)
      ↔ self.streaming_required.isSome) := by
  constructor
  · cases hsr : self.streaming_required <;> cases hg : self.goal_is_custom <;>
      simp [StartRace.form, List.lookup, hsr, hg]
  · cases hsr : self.streaming_required <;> cases hg : self.goal_is_custom <;>
      simp [StartRace.form, hsr, hg]

/-- C5: every boolean field serialized into the form body (`team_race`,
`invitational`, `unlisted`, `require_even_teams`,
`time_limit_auto_complete`, `auto_start`, `allow_comments`,
`hide_comments`, `allow_prerace_chat`, `allow_midrace_chat`,
`allow_non_entrant_chat`, and `streaming_required` when present) is
encoded as exactly `"1"` when true and exactly `"0"` when false, never
any other token. -/
theorem form_bool_values (self : StartRace) (k v : String)
    (hmem : (k, v) ∈ self.form) (hk : k ∈ boolFormKeys) :
    v = "1" ∨ v = "0" := by
  cases hsr : self.streaming_required with
  | none =>
    cases hg : self.goal_is_custom <;>
      simp [StartRace.form, hg, hsr] at hmem <;>
      rcases hmem with h|h|h|h|h|h|h|h|h|h|h|h|h|h|h|h|h <;>
      obtain ⟨rfl, rfl⟩ := h <;>
      first
        | exact form_bool_eq _
        | exact absurd hk (by decide)
  | some b =>
    cases hg : self.goal_is_custom <;>
      simp [StartRace.form, hg, hsr] at hmem <;>
      rcases hmem with h|h|h|h|h|h|h|h|h|h|h|h|h|h|h|h|h|h <;>
      obtain ⟨rfl, rfl⟩ := h <;>
      first
        | exact form_bool_eq _
        | exact absurd hk (by decide)

theorem form_bool_values_witness : ("1" : String) = "1" ∨ ("1" : String) = "0" :=
  form_bool_values sampleConfig "team_race" "1" (by decide) (by decide)

/-- C6: for every room configuration, the form body maps the goal string
under the key `custom_goal` when `goal_is_custom` is true and under the
key `goal` when `goal_is_custom` is false, and in each case the other of
the two keys is absent from the form — exactly one of `goal` /
`custom_goal` is ever submitted. -/
theorem form_goal_key (self : StartRace) :
    List.lookup "custom_goal" self.form
      = (if self.goal_is_custom then some self.goal else none) ∧
    List.lookup "goal" self.form
      = (if self.goal_is_custom then none else some self.goal) := by
  cases hg : self.goal_is_custom <;> cases hsr : self.streaming_required <;>
    simp [StartRace.form, List.lookup, hg, hsr]

/-- C7: for all valid `(scheme, path)` inputs (a non-empty scheme of
scheme characters, and a path that is empty or starts with `/` and
contains only URI characters), `uri` returns a parsed absolute URI whose
host equals the fixed constant host and whose path equals the supplied
path argument unchanged; and whenever the composed string fails to
parse, the error kind is `UrlParse`.  `http_uri` is `uri` with the
scheme fixed to `https`. -/
theorem uri_builder_spec :
    (∀ proto path : String,
      proto.data ≠ [] → proto.data.all isSchemeChar →
      (path.data = [] ∨ ∃ r, path.data = '/' :: r) →
      path.data.all isUriChar →
      ∃ u, uri proto path = .ok u ∧ u.host = RACETIME_HOST ∧ u.path = path) ∧
    (∀ (proto path : String) (e : Error),
      uri proto path = .error e → e = .UrlParse) ∧
    (∀ path : String, http_uri path = uri "https" path) := by
  refine ⟨?_, ?_, fun _ => rfl⟩
  · intro proto path h1 h2 h3 h4
    exact ⟨⟨proto, RACETIME_HOST, path⟩, uri_ok proto path h1 h2 h3 h4, rfl, rfl⟩
  · intro proto path e h
    exact parseUrl_error_imp h

theorem uri_builder_spec_witness :
    ∃ u, uri "https" "/o/token" = .ok u ∧ u.host = RACETIME_HOST ∧ u.path = "/o/token" :=
  uri_builder_spec.1 "https" "/o/token" (by decide) (by decide)
    (Or.inr ⟨"o/token".data, rfl⟩) (by decide)

/-- C10: the three numeric room-configuration fields `start_delay`,
`time_limit` and `chat_message_delay` are 8-bit unsigned integers, so
their form-encoded values are decimal strings of integers in the range 0
to 255 inclusive: at most three digits, all decimal digits, never
negative, never larger. -/
theorem form_numeric_fields (self : StartRace) (k : String)
    (hk : k ∈ (["start_delay", "time_limit", "chat_message_delay"] : List String)) :
    ∃ n : Nat, n ≤ 255 ∧ List.lookup k self.form = some (toString n) ∧
      (toString n).length ≤ 3 ∧ (toString n).data.all Char.isDigit := by
  simp at hk
  rcases hk with rfl | rfl | rfl
  · refine ⟨self.start_delay.val, by have := self.start_delay.isLt; omega, ?_,
      u8_decimal_repr self.start_delay⟩
    cases hg : self.goal_is_custom <;> cases hsr : self.streaming_required <;>
      simp [StartRace.form, List.lookup, hg, hsr]
  · refine ⟨self.time_limit.val, by have := self.time_limit.isLt; omega, ?_,
      u8_decimal_repr self.time_limit⟩
    cases hg : self.goal_is_custom <;> cases hsr : self.streaming_required <;>
      simp [StartRace.form, List.lookup, hg, hsr]
  · refine ⟨self.chat_message_delay.val, by have := self.chat_message_delay.isLt; omega, ?_,
      u8_decimal_repr self.chat_message_delay⟩
    cases hg : self.goal_is_custom <;> cases hsr : self.streaming_required <;>
      simp [StartRace.form, List.lookup, hg, hsr]

theorem form_numeric_fields_witness :
    ∃ n : Nat, n ≤ 255 ∧ List.lookup "start_delay" sampleConfig.form = some (toString n) ∧
      (toString n).length ≤ 3 ∧ (toString n).data.all Char.isDigit :=
  form_numeric_fields sampleConfig "start_delay" (by decide)

/-- C1: for every room configuration, access token, and category string,
if the room-creation POST succeeds (2xx) and the response carries a
location header of exactly the form `/{c}/{slug}` (two non-empty,
slash-free segments) whose first segment equals the requested category
under exact string equality, then `StartRace.start` returns `ok` with
exactly the second segment as the slug. -/
theorem start_returns_slug (self : StartRace) (access_token category slug : String)
    (resp : StartHttpResponse) (u : Url)
    (hurl : http_uri ("/o/" ++ category ++ "/startrace") = .ok u)
    (h2xx : 200 ≤ resp.status ∧ resp.status < 300)
    (hloc : resp.location = some (some ("/" ++ category ++ "/" ++ slug)))
    (hcat : category ≠ "") (hslug : slug ≠ "")
    (hnoc : '/' ∉ category.data) (hnos : '/' ∉ slug.data) :
    self.start access_token category resp = .ok slug := by
  have h400 : ¬ (400 ≤ resp.status) := by omega
  have hefs : errorForStatus resp.status = false := by
    simp [errorForStatus, h400]
  have hm : locationMatch ("/" ++ category ++ "/" ++ slug) = some (category, slug) :=
    locationMatch_eq_some_iff.mpr ⟨rfl, hcat, hslug, hnoc, hnos⟩
  unfold StartRace.start
  rw [hurl]
  simp [hefs, hloc, hm]

theorem start_returns_slug_witness :
    sampleConfig.start "token" "zelda64" ⟨201, some (some "/zelda64/abc123")⟩ = .ok "abc123" :=
  start_returns_slug sampleConfig "token" "zelda64" "abc123"
    ⟨201, some (some "/zelda64/abc123")⟩
    ⟨"https", RACETIME_HOST, "/o/zelda64/startrace"⟩ rfl (by decide) rfl
    (by decide) (by decide) (by decide) (by decide)

/-- C2: when the room-creation POST returns a success status, the
location validation of `StartRace.start` fails by exactly this case
analysis: an absent location header fails with `MissingLocationHeader`;
a present, textual header that does not match the two-segment shape
`/{category}/{slug}` fails with `LocationFormat`; a header matching the
shape whose parsed category segment differs from the caller-supplied
category fails with `LocationCategory`. -/
theorem start_location_errors (self : StartRace) (access_token category : String)
    (resp : StartHttpResponse) (u : Url)
    (hurl : http_uri ("/o/" ++ category ++ "/startrace") = .ok u)
    (h2xx : 200 ≤ resp.status ∧ resp.status < 300) :
    (resp.location = none →
      self.start access_token category resp = .error .MissingLocationHeader) ∧
    (∀ location, resp.location = some (some location) → ¬ TwoSegments location →
      self.start access_token category resp = .error .LocationFormat) ∧
    (∀ location c s, resp.location = some (some location) →
      location = "/" ++ c ++ "/" ++ s → c ≠ "" → s ≠ "" →
      '/' ∉ c.data → '/' ∉ s.data → c ≠ category →
      self.start access_token category resp = .error .LocationCategory) := by
  have h400 : ¬ (400 ≤ resp.status) := by omega
  have hefs : errorForStatus resp.status = false := by
    simp [errorForStatus, h400]
  refine ⟨?_, ?_, ?_⟩
  · intro hloc
    unfold StartRace.start
    rw [hurl]
    simp [hefs, hloc]
  · intro location hloc hnot
    have hm : locationMatch location = none := by
      cases hm2 : locationMatch location with
      | none => rfl
      | some p =>
        obtain ⟨c, s⟩ := p
        obtain ⟨hsh, hc, hsl, hnoc, hnos⟩ := locationMatch_eq_some_iff.mp hm2
        exact absurd ⟨c, s, hsh, hc, hsl, hnoc, hnos⟩ hnot
    unfold StartRace.start
    rw [hurl]
    simp [hefs, hloc, hm]
  · intro location c s hloc hshape hc hs hnoc hnos hne
    have hm : locationMatch location = some (c, s) :=
      locationMatch_eq_some_iff.mpr ⟨hshape, hc, hs, hnoc, hnos⟩
    unfold StartRace.start
    rw [hurl]
    simp [hefs, hloc, hm, hne]

theorem start_location_errors_witness :
    sampleConfig.start "token" "zelda64" ⟨204, none⟩ = .error .MissingLocationHeader :=
  (start_location_errors sampleConfig "token" "zelda64" ⟨204, none⟩
    ⟨"https", RACETIME_HOST, "/o/zelda64/startrace"⟩ rfl (by decide)).1 rfl

/-- C9: for every room configuration, access token, HTTP response, and
category argument that is empty or contains a `/` character,
`StartRace.start` can never return `ok`: the location shape check only
accepts non-empty, slash-free category segments, so the exact-equality
comparison against such a category argument always fails. -/
theorem start_ne_ok_of_bad_category (self : StartRace) (access_token category : String)
    (resp : StartHttpResponse) (slug : String)
    (hcat : category = "" ∨ '/' ∈ category.data) :
    self.start access_token category resp ≠ .ok slug := by
  intro h
  unfold StartRace.start at h
  split at h
  · exact absurd h (by simp)
  · split at h
    · exact absurd h (by simp)
    · split at h
      · exact absurd h (by simp)
      · exact absurd h (by simp)
      · split at h
        · exact absurd h (by simp)
        · next location c s heq =>
          split at h
          · exact absurd h (by simp)
          · next hne =>
            obtain ⟨_, hc, _, hnoc, _⟩ := locationMatch_eq_some_iff.mp heq
            have hceq : c = category := not_not.mp hne
            rcases hcat with hempty | hmem
            · exact hc (hceq.trans hempty)
            · exact hnoc (by rw [hceq]; exact hmem)

theorem start_ne_ok_of_bad_category_witness :
    sampleConfig.start "token" "" ⟨200, some (some "//abc")⟩ ≠ .ok "abc" :=
  start_ne_ok_of_bad_category sampleConfig "token" "" ⟨200, some (some "//abc")⟩ "abc"
    (Or.inl rfl)

/-- C8 counterexample: a status of 302 is not 2xx, yet `authorize` on a
302 response with a well-formed JSON body returns success rather than
the HTTP-error kind, because `error_for_status` only fails on 4xx/5xx
statuses. -/
theorem non2xx_not_http_error_counterexample :
    ¬ (200 ≤ 302 ∧ 302 < 300) ∧
    authorize ⟨302, some ⟨"tok", none⟩⟩ = .ok ("tok", 36000) :=
  ⟨by decide, rfl⟩

/-- C8 amended: for every call to `authorize` or `StartRace.start` whose
HTTP POST completes with a 4xx or 5xx status, the operation returns the
HTTP-error kind (not any other error kind and not success), and that
error carries the URL of the failed request. -/
theorem http_error_on_4xx_5xx (status : Nat) (h4 : 400 ≤ status) (h6 : status < 600) :
    (∀ body, authorize ⟨status, body⟩
        = .error (.Reqwest ⟨"https", RACETIME_HOST, "/o/token"⟩ status)) ∧
    (∀ (self : StartRace) (access_token category : String)
        (loc : Option (Option String)) (u : Url),
      http_uri ("/o/" ++ category ++ "/startrace") = .ok u →
      self.start access_token category ⟨status, loc⟩ = .error (.Reqwest u status)) := by
  have hefs : errorForStatus status = true := by
    simp [errorForStatus]
    omega
  constructor
  · intro body
    unfold authorize
    rw [show http_uri "/o/token" = .ok ⟨"https", RACETIME_HOST, "/o/token"⟩ from rfl]
    simp [hefs]
  · intro self access_token category loc u hurl
    unfold StartRace.start
    rw [hurl]
    simp [hefs]

theorem http_error_on_4xx_5xx_witness :
    authorize ⟨404, some ⟨"tok", none⟩⟩
      = .error (.Reqwest ⟨"https", RACETIME_HOST, "/o/token"⟩ 404) :=
  (http_error_on_4xx_5xx 404 (by decide) (by decide)).1 (some ⟨"tok", none⟩)

end Racetime
